import Mathlib

/-!
Shallow embedding of `darknet_ros/src/YoloObjectDetector.cpp` (the frame
pipeline of the `new_atd2` repository) together with theorems settling the
specification claims about it.

Modelling conventions:
* C `float` values are embedded as exact rationals `ℚ`; the spec's claims are
  about the idealized (exact) arithmetic of the algorithms.
* A depth-map entry is a pair `(value, isnormal)` where the boolean records the
  result of the C `std::isnormal` test on that float (false for NaN, ±inf,
  zero and subnormals).
* A C `(int)` cast is truncation toward zero (`cIntCast`).
* Stateful callbacks become explicit state-passing functions on `NodeState`;
  the `cv_bridge::toCvCopy` decode that can throw is an `Option` argument
  (`none` = decode threw); the boolean output records whether the
  `ROS_ERROR` diagnostic was emitted.
* `NaN` results (the "no value" depth) are `Option.none`.
-/

namespace DarknetRos

/-- C-style truncation toward zero of a rational, as performed by a C
`(int)` cast: floor for nonnegative values, ceiling for negative values. -/
def cIntCast (q : ℚ) : ℤ := if 0 ≤ q then ⌊q⌋ else ⌈q⌉

/-- A decoded OpenCV image: pixel dimensions plus an abstract content tag
standing for the pixel payload. -/
structure CvImage where
  width : ℤ
  height : ℤ
  data : ℕ
deriving DecidableEq

/-- The shared staging state of the node written by the two ingestion
callbacks (`zedCameraCallback`, `checkForObjectsActionGoalCB`) and read by
the pipeline: staged frame header `imageHeader_`, staged color frame
`camImageCopy_`, staged depth map `camDmapCopy_`, the image-available flag
`imageStatus_`, the frame dimensions `frameWidth_`/`frameHeight_`, the
active action correlation id `actionId_`, and the count of the
`sem_new_image_` semaphore. The depth map is a function from (row, column)
pixel indices to a reading. -/
structure NodeState where
  imageHeader : ℤ
  camImageCopy : CvImage
  camDmapCopy : ℤ → ℤ → ℚ × Bool
  imageStatus : Bool
  frameWidth : ℤ
  frameHeight : ℤ
  actionId : ℤ
  semNewImage : ℕ

/-- `zedCameraCallback(img_msg, dmap_msg)`: on a successful decode of both
messages it stages header, color frame and depth map under the image lock,
sets the image-available flag, records the frame dimensions and posts the
new-image semaphore; a `cv_bridge` decode failure (`decoded = none`) logs an
error and returns without touching any state. The returned boolean is true
iff the error diagnostic was emitted. -/
def zedCameraCallback (s : NodeState) (header : ℤ)
    (decoded : Option (CvImage × (ℤ → ℤ → ℚ × Bool))) : NodeState × Bool :=
  match decoded with
  | none => (s, true)
  | some (img, dmap) =>
      ({ s with
          imageHeader := header
          camImageCopy := img
          camDmapCopy := dmap
          imageStatus := true
          frameWidth := img.width
          frameHeight := img.height
          semNewImage := s.semNewImage + 1 }, false)

/-- `checkForObjectsActionGoalCB()`: on a successful decode of the goal image
it stages the color frame, records the goal id as the active action id, sets
the image-available flag and records the frame dimensions; it touches neither
the staged depth map nor the staged header, and does not post the new-image
semaphore. A decode failure (`decoded = none`) logs an error and returns
without touching any state. -/
def checkForObjectsActionGoalCB (s : NodeState) (goalId : ℤ)
    (decoded : Option CvImage) : NodeState × Bool :=
  match decoded with
  | none => (s, true)
  | some img =>
      ({ s with
          camImageCopy := img
          actionId := goalId
          imageStatus := true
          frameWidth := img.width
          frameHeight := img.height }, false)

/-- Ring-index advance performed once per scheduler iteration:
`buffIndex_ = (buffIndex_ + 1) % 3`. -/
def advanceRing (i : ℕ) : ℕ := (i + 1) % 3

/-- Ring slot read by the detect stage: `(buffIndex_ + 2) % 3`
(`buffLetter_[(buffIndex_ + 2) % 3]` in `detectInThread`). -/
def detectSlot (i : ℕ) : ℕ := (i + 2) % 3

/-- Ring slot read by the display stage: `(buffIndex_ + 1) % 3`
(`buff_[(buffIndex_ + 1) % 3]` in `displayInThread`). -/
def displaySlot (i : ℕ) : ℕ := (i + 1) % 3

/-- The nine interior grid points sampled by `getObjDepth` for a box with
edges `xmin/xmax/ymin/ymax`: for row `i` and column `j` ranging over
`1..refs` with `refs = 3`, the point
`(xmin + j*(xmax-xmin)/(refs+1), ymin + i*(ymax-ymin)/(refs+1))`. -/
def gridPoints (xmin xmax ymin ymax : ℚ) : List (ℚ × ℚ) :=
  (List.range 3).flatMap (fun (i0 : ℕ) =>
    (List.range 3).map (fun (j0 : ℕ) =>
      (xmin + ((j0 : ℚ) + 1) * (xmax - xmin) / 4,
       ymin + ((i0 : ℚ) + 1) * (ymax - ymin) / 4)))

/-- Reading the staged depth map at a normalized point `(x, y)`:
`camDmapCopy_.at<float>((int)(y*frameHeight_), (int)(x*frameWidth_))`,
returning the float value together with its `std::isnormal` status. -/
def readDepth (s : NodeState) (p : ℚ × ℚ) : ℚ × Bool :=
  s.camDmapCopy (cIntCast (p.2 * s.frameHeight)) (cIntCast (p.1 * s.frameWidth))

/-- The nine depth readings `getObjDepth` takes for a box, in sampling
order. -/
def gridReadings (s : NodeState) (xmin xmax ymin ymax : ℚ) : List (ℚ × Bool) :=
  (gridPoints xmin xmax ymin ymax).map (readDepth s)

/-- `getObjDepth(xmin, xmax, ymin, ymax)`: push every sampled reading that
passes `std::isnormal` into `depths`, sort ascending, then return `depths[1]`
if more than one survived, `depths[0]` if exactly one survived, and NaN
(modelled as `none`) otherwise. -/
def getObjDepth (s : NodeState) (xmin xmax ymin ymax : ℚ) : Option ℚ :=
  let depths := (List.range 3).flatMap (fun (i0 : ℕ) =>
    (List.range 3).filterMap (fun (j0 : ℕ) =>
      let x := xmin + ((j0 : ℚ) + 1) * (xmax - xmin) / 4
      let y := ymin + ((i0 : ℚ) + 1) * (ymax - ymin) / 4
      let d := s.camDmapCopy (cIntCast (y * s.frameHeight)) (cIntCast (x * s.frameWidth))
      if d.2 then some d.1 else none))
  match List.insertionSort (fun a b => a ≤ b) depths with
  | _ :: d1 :: _ => some d1
  | [d0] => some d0
  | [] => none

/-- Modelled from the spec's own wording of the depth-estimate rule, for
comparison with `getObjDepth`: discard any reading failing the validity test,
sort the remaining valid readings ascending, and report the second-smallest
if at least two valid readings exist, the only reading if exactly one exists,
and "no value" if none exist. -/
def depthEstimateSpec (readings : List (ℚ × Bool)) : Option ℚ :=
  let valid := (readings.filter (fun r => r.2)).map Prod.fst
  if 2 ≤ valid.length then (List.insertionSort (fun a b => a ≤ b) valid)[1]?
  else if valid.length = 1 then valid.head?
  else none

/-- The four edges of a box in normalized coordinates. -/
structure Box4 where
  xmin : ℚ
  ymin : ℚ
  xmax : ℚ
  ymax : ℚ
deriving DecidableEq

/-- Raw box edges computed in `detectInThread` from a detection's
center/size: `xmin = x - w/2`, `xmax = x + w/2`, `ymin = y - h/2`,
`ymax = y + h/2`. -/
def rawEdges (x y w h : ℚ) : Box4 :=
  { xmin := x - w / 2, ymin := y - h / 2, xmax := x + w / 2, ymax := y + h / 2 }

/-- The clipping performed in `detectInThread`: `xmin` and `ymin` are raised
to 0 when negative, `xmax` and `ymax` are lowered to 1 when above 1; nothing
else is changed. -/
def clipEdges (b : Box4) : Box4 :=
  { xmin := if b.xmin < 0 then 0 else b.xmin
    ymin := if b.ymin < 0 then 0 else b.ymin
    xmax := if b.xmax > 1 then 1 else b.xmax
    ymax := if b.ymax > 1 then 1 else b.ymax }

/-- One candidate detection as produced by the inference engine's decoder
(`get_network_boxes` after non-max suppression): box center/size in
normalized coordinates plus the per-class score array `prob`. -/
structure Detection where
  x : ℚ
  y : ℚ
  w : ℚ
  h : ℚ
  prob : List ℚ
deriving DecidableEq

/-- One emitted record (`RosBox_`): clipped center/size, depth estimate `z`,
class index and class score. -/
structure RosBox where
  x : ℚ
  y : ℚ
  w : ℚ
  h : ℚ
  z : Option ℚ
  Class : ℕ
  prob : ℚ
deriving DecidableEq

/-- The clipped edges of a detection's box. -/
def detClip (det : Detection) : Box4 :=
  clipEdges (rawEdges det.x det.y det.w det.h)

/-- The `roiBoxes_` record `detectInThread` fills for detection `det` and
class `j`: clipped center `(x_center, y_center)`, clipped width/height, the
depth estimate from `getObjDepth`, the class index and the class score. -/
def detRecord (s : NodeState) (det : Detection) (j : ℕ) : RosBox :=
  let c := detClip det
  { x := (c.xmin + c.xmax) / 2
    y := (c.ymin + c.ymax) / 2
    w := c.xmax - c.xmin
    h := c.ymax - c.ymin
    z := getObjDepth s c.xmin c.xmax c.ymin c.ymax
    Class := j
    prob := det.prob.getD j 0 }

/-- The box-extraction loop of `detectInThread` (lines after
`draw_detections`): for every candidate box, clip its edges, then for every
class `j < demoClasses_` with a nonzero score, emit the record provided the
clipped width and height both exceed 0.01; records are emitted in loop
order. -/
def extractBoxes (s : NodeState) (dets : List Detection) (demoClasses : ℕ) :
    List RosBox :=
  dets.flatMap (fun det =>
    (List.range demoClasses).filterMap (fun j =>
      if det.prob.getD j 0 ≠ 0 then
        if (detClip det).xmax - (detClip det).xmin > 1 / 100 ∧
           (detClip det).ymax - (detClip det).ymin > 1 / 100 then
          some (detRecord s det j)
        else none
      else none))

/-- `roiBoxes_[0].num` as set at the end of `detectInThread`: 0 when no
record was collected, the collected count otherwise. -/
def roiBoxesNum (count : ℕ) : ℕ := if count = 0 then 0 else count

/-- The detection-count scalar published by `publishInThread` on the
`found_object` topic: the stored count when `0 < num ≤ 100`, and 0
otherwise (both when nothing survived and when more than 100 did). -/
def publishedCount (num : ℕ) : ℕ := if 0 < num ∧ num ≤ 100 then num else 0

/-- The part of the node state `publishInThread` consults to complete an
on-demand request: the ring index `buffIndex_`, the per-slot correlation
tags `buffId_`, and whether a request is active and unpreempted
(`isCheckingForObjects()`). -/
structure PublishState where
  buffIndex : ℕ
  buffId : Fin 3 → ℤ
  actionActive : Bool

/-- The action-completion step of `publishInThread`: when
`isCheckingForObjects()` holds, the action result is succeeded with
`objectsActionResult.id = buffId_[0]` (the tag of ring slot 0), which
deactivates the request; otherwise nothing is completed. Returns the
correlation id the request was completed with (if any) and the new state. -/
def publishAction (s : PublishState) : Option ℤ × PublishState :=
  if s.actionActive then (some (s.buffId 0), { s with actionActive := false })
  else (none, s)

/-- `axpy_cpu(N, ALPHA, X, INCX, Y, INCY)` with unit strides:
`Y[i] += ALPHA * X[i]` elementwise. -/
def axpyCpu (n : ℕ) (a : ℚ) (x y : Fin n → ℚ) : Fin n → ℚ :=
  fun i => a * x i + y i

/-- `fill_cpu(N, ALPHA, X, INCX)` with unit stride: `X[i] = ALPHA`. -/
def fillCpu (n : ℕ) (c : ℚ) : Fin n → ℚ := fun _ => c

/-- The averaging loop of `avgPredictions`: zero `avg_`, then for each of
the `demoFrame_ = W` stored prediction vectors add `(1/W) ·` that vector
into `avg_`. The result is the vector written back into the detection
layers' output buffers before `get_network_boxes` decodes boxes from it. -/
def avgPredictions (n : ℕ) (W : ℕ) (preds : List (Fin n → ℚ)) : Fin n → ℚ :=
  preds.foldl (fun avg p => axpyCpu n (1 / (W : ℚ)) p avg) (fillCpu n 0)

/-- The scheduler state relevant to shutdown: the loop-exit flag
`demoDone_`, the node-running flag `isNodeRunning_`, and the number of
spawned but not yet joined fetch/detect contexts. -/
structure SchedState where
  demoDone : Bool
  nodeRunning : Bool
  unjoined : ℕ
deriving DecidableEq

/-- One iteration of the `yolo()` loop body after `sem_wait` returns: spawn
the fetch and detect contexts, run display and publish, join both spawned
contexts, then check `isNodeRunning()` and set `demoDone_` when it is
false. -/
def yoloIteration (s : SchedState) : SchedState :=
  let spawned := { s with unjoined := s.unjoined + 2 }
  let joined := { spawned with unjoined := spawned.unjoined - 2 }
  if joined.nodeRunning then joined else { joined with demoDone := true }

/-- The `while (!demoDone_)` loop of `yolo()`. Each iteration first blocks
in `sem_wait(&sem_new_image_)`; `tokens` lists the semaphore posts available
to the loop now or in the future. The result is `none` when the loop blocks
forever in `sem_wait` (no token left while `demoDone_` is still false),
and otherwise the final state together with the number of iterations
executed. -/
def yoloLoop (tokens : List Unit) (s : SchedState) : Option (SchedState × ℕ) :=
  if s.demoDone then some (s, 0)
  else
    match tokens with
    | [] => none
    | _ :: ts =>
        match yoloLoop ts (yoloIteration s) with
        | some (sf, k) => some (sf, k + 1)
        | none => none

/-- A concrete staging state used to instantiate theorems: a 100×100 frame
whose depth map holds exactly two normal readings (3 at pixel (25,25) and 5
at pixel (25,50)) and invalid readings everywhere else. -/
def depthWitnessState : NodeState :=
  { imageHeader := 0
    camImageCopy := ⟨100, 100, 0⟩
    camDmapCopy := fun r c =>
      if r = 25 ∧ c = 25 then (3, true)
      else if r = 25 ∧ c = 50 then (5, true)
      else (0, false)
    imageStatus := true
    frameWidth := 100
    frameHeight := 100
    actionId := 0
    semNewImage := 0 }

/-- A concrete detection whose box sticks out past the right edge of the
frame (raw xmax = 5/4) with one nonzero class score. -/
def boundaryDet : Detection := ⟨1, 1 / 2, 1 / 2, 1 / 2, [1]⟩

/-- A concrete detection wholly inside the frame, well above the minimum
size, with one nonzero class score. -/
def bigDet : Detection := ⟨1 / 2, 1 / 2, 1 / 2, 1 / 2, [1]⟩

/-- A concrete detection whose clipped width is 0.005 (sub-threshold) and
clipped height is 0.2, with nonzero class score 0.7. -/
def thinDet : Detection := ⟨1 / 2, 1 / 2, 1 / 200, 1 / 5, [7 / 10]⟩

/-- A concrete publish-stage state at ring index 0 whose slot tags differ:
slot 1 holds correlation id 42, slots 0 and 2 hold 7, with a request
active. -/
def cexPublishState : PublishState :=
  ⟨0, fun i => if i = 1 then 42 else 7, true⟩

/-- A concrete publish-stage state at ring index 2 with distinct slot tags
and a request active. -/
def witPublishState : PublishState := ⟨2, fun i => (i : ℤ) + 10, true⟩

/-- Claim C5: in every scheduler iteration with ring index `i ∈ {0,1,2}`,
the slots accessed by fetch (`i`), detect (`(i+2) mod 3`) and display
(`(i+1) mod 3`) are pairwise distinct and together form exactly `{0,1,2}`;
moreover the ring-index advance keeps the index in `{0,1,2}`. -/
theorem ringSlots_pairwise_distinct (i : ℕ) (hi : i < 3) :
    (i ≠ detectSlot i ∧ i ≠ displaySlot i ∧ detectSlot i ≠ displaySlot i) ∧
    ({i, detectSlot i, displaySlot i} : Finset ℕ) = {0, 1, 2} ∧
    advanceRing i < 3 := by
  interval_cases i <;> decide

/-- Concrete instance of `ringSlots_pairwise_distinct` at ring index 1. -/
theorem ringSlots_pairwise_distinct_witness :
    1 < 3 ∧
    ((1 ≠ detectSlot 1 ∧ 1 ≠ displaySlot 1 ∧ detectSlot 1 ≠ displaySlot 1) ∧
     ({1, detectSlot 1, displaySlot 1} : Finset ℕ) = {0, 1, 2} ∧
     advanceRing 1 < 3) :=
  ⟨by decide, ringSlots_pairwise_distinct 1 (by decide)⟩

/-- Claim C9: a frame-decode failure on either input path (the streaming
`zedCameraCallback` or the on-demand `checkForObjectsActionGoalCB`) drops
the frame, emits the diagnostic, and leaves the entire staging state —
staged frame, depth map, header, correlation id, image-available flag and
semaphore count — exactly as it was. -/
theorem decodeFailure_no_state_change (s : NodeState) (header goalId : ℤ) :
    zedCameraCallback s header none = (s, true) ∧
    checkForObjectsActionGoalCB s goalId none = (s, true) :=
  ⟨rfl, rfl⟩

/-- Claim C10: ingesting an on-demand request frame updates only the staged
color frame, the active correlation id, the frame dimensions and the
image-available flag; the staged depth map, the staged header and the
new-frame semaphore are untouched, and every depth reading taken afterwards
comes from the previously staged (streaming) depth map. -/
theorem requestIngest_frame_effect (s : NodeState) (goalId : ℤ) (img : CvImage) :
    (checkForObjectsActionGoalCB s goalId (some img)).1.camDmapCopy = s.camDmapCopy ∧
    (checkForObjectsActionGoalCB s goalId (some img)).1.imageHeader = s.imageHeader ∧
    (checkForObjectsActionGoalCB s goalId (some img)).1.semNewImage = s.semNewImage ∧
    (checkForObjectsActionGoalCB s goalId (some img)).1.camImageCopy = img ∧
    (checkForObjectsActionGoalCB s goalId (some img)).1.actionId = goalId ∧
    (checkForObjectsActionGoalCB s goalId (some img)).1.imageStatus = true ∧
    (checkForObjectsActionGoalCB s goalId (some img)).1.frameWidth = img.width ∧
    (checkForObjectsActionGoalCB s goalId (some img)).1.frameHeight = img.height ∧
    ∀ p : ℚ × ℚ,
      readDepth (checkForObjectsActionGoalCB s goalId (some img)).1 p
        = s.camDmapCopy (cIntCast (p.2 * (img.height : ℚ))) (cIntCast (p.1 * (img.width : ℚ))) :=
  ⟨rfl, rfl, rfl, rfl, rfl, rfl, rfl, rfl, fun _ => rfl⟩

/-- Elementwise value of folding `axpy_cpu` over a list of prediction
vectors. -/
theorem foldl_axpy_apply (n : ℕ) (a : ℚ) (preds : List (Fin n → ℚ))
    (acc : Fin n → ℚ) (i : Fin n) :
    (preds.foldl (fun avg p => axpyCpu n a p avg) acc) i
      = acc i + a * (preds.map (fun p => p i)).sum := by
  induction preds generalizing acc with
  | nil => simp
  | cons p ps ih =>
      rw [List.foldl_cons, ih]
      simp [axpyCpu]
      ring

/-- Claim C4: `avgPredictions` computes, per output element, the unweighted
arithmetic mean of the `W` stored prediction vectors, and consequently when
the identical raw output vector occupies all `W` history entries the
computed mean equals that vector exactly. -/
theorem avgPredictions_mean (n W : ℕ) (preds : List (Fin n → ℚ))
    (hlen : preds.length = W) (hW : 0 < W) :
    (∀ i, avgPredictions n W preds i = (preds.map (fun p => p i)).sum / (W : ℚ)) ∧
    (∀ v : Fin n → ℚ, preds = List.replicate W v → avgPredictions n W preds = v) := by
  have hWQ : ((W : ℚ)) ≠ 0 := Nat.cast_ne_zero.mpr hW.ne'
  constructor
  · intro i
    rw [avgPredictions, foldl_axpy_apply]
    simp [fillCpu]
    field_simp
  · intro v hv
    funext i
    rw [avgPredictions, foldl_axpy_apply]
    subst hv
    simp [fillCpu, List.map_replicate, List.sum_replicate, nsmul_eq_mul]
    field_simp

/-- Concrete instance of `avgPredictions_mean`: two identical stored vectors
of width one average back to themselves. -/
theorem avgPredictions_mean_witness :
    (List.replicate 2 (fun _ : Fin 1 => (3 : ℚ))).length = 2 ∧ 0 < 2 ∧
    avgPredictions 1 2 (List.replicate 2 (fun _ : Fin 1 => (3 : ℚ)))
      = (fun _ : Fin 1 => (3 : ℚ)) :=
  ⟨rfl, by decide,
    (avgPredictions_mean 1 2 (List.replicate 2 (fun _ : Fin 1 => (3 : ℚ)))
      rfl (by decide)).2 _ rfl⟩

/-- A `filterMap` whose body keeps `(g a).1` exactly when the flag
`(g a).2` is set equals filtering the mapped readings on the flag and
projecting the value. -/
theorem filterMap_if_eq {α β : Type} (l : List α) (g : α → β × Bool) :
    l.filterMap (fun a => if (g a).2 then some (g a).1 else none)
      = ((l.map g).filter (fun r => r.2)).map Prod.fst := by
  induction l with
  | nil => rfl
  | cons a l ih =>
      by_cases h : (g a).2 <;>
        simp [List.filterMap_cons, List.filter_cons, h, ih]

/-- The double collection loop of `getObjDepth` equals filtering the mapped
grid readings on validity and projecting the value. -/
theorem flatMap_filterMap_if {α β γ : Type} (li : List α) (lj : List β)
    (pt : α → β → γ) (rd : γ → ℚ × Bool) :
    li.flatMap (fun i0 => lj.filterMap (fun j0 =>
        if (rd (pt i0 j0)).2 then some (rd (pt i0 j0)).1 else none))
      = ((((li.flatMap (fun i0 => lj.map (fun j0 => pt i0 j0))).map rd).filter
          (fun r => r.2)).map Prod.fst) := by
  induction li with
  | nil => rfl
  | cons i li ih =>
      simp only [List.flatMap_cons, List.map_append, List.filter_append, ih]
      congr 1
      rw [filterMap_if_eq lj (fun j0 => rd (pt i j0)), List.map_map]
      simp only [Function.comp_def]

/-- Claim C3: the depth estimate of a box is computed from the 3×3 interior
grid of samples strictly inside the box; `getObjDepth` returns exactly what
the spec's rule prescribes (discard invalid readings, sort the valid ones
ascending, report the second-smallest if at least two exist, the only one if
exactly one exists, and no value if none exist), and every grid point lies
strictly inside the box. -/
theorem getObjDepth_spec (s : NodeState) (xmin xmax ymin ymax : ℚ)
    (hx : xmin < xmax) (hy : ymin < ymax) :
    getObjDepth s xmin xmax ymin ymax
      = depthEstimateSpec (gridReadings s xmin xmax ymin ymax) ∧
    ∀ p ∈ gridPoints xmin xmax ymin ymax,
      xmin < p.1 ∧ p.1 < xmax ∧ ymin < p.2 ∧ p.2 < ymax := by
  constructor
  · have hdv : (List.range 3).flatMap (fun (i0 : ℕ) =>
        (List.range 3).filterMap (fun (j0 : ℕ) =>
          if (s.camDmapCopy
                (cIntCast ((ymin + ((i0 : ℚ) + 1) * (ymax - ymin) / 4) * (s.frameHeight : ℚ)))
                (cIntCast ((xmin + ((j0 : ℚ) + 1) * (xmax - xmin) / 4) * (s.frameWidth : ℚ)))).2
          then some (s.camDmapCopy
                (cIntCast ((ymin + ((i0 : ℚ) + 1) * (ymax - ymin) / 4) * (s.frameHeight : ℚ)))
                (cIntCast ((xmin + ((j0 : ℚ) + 1) * (xmax - xmin) / 4) * (s.frameWidth : ℚ)))).1
          else none))
        = ((gridReadings s xmin xmax ymin ymax).filter (fun r => r.2)).map Prod.fst :=
      flatMap_filterMap_if (List.range 3) (List.range 3)
        (fun (i0 j0 : ℕ) => (xmin + ((j0 : ℚ) + 1) * (xmax - xmin) / 4,
                             ymin + ((i0 : ℚ) + 1) * (ymax - ymin) / 4)) (readDepth s)
    simp only [getObjDepth]
    rw [hdv]
    have hperm := List.perm_insertionSort (fun a b : ℚ => a ≤ b)
      (((gridReadings s xmin xmax ymin ymax).filter (fun r => r.2)).map Prod.fst)
    simp only [depthEstimateSpec]
    rcases hS : List.insertionSort (fun a b : ℚ => a ≤ b)
        (((gridReadings s xmin xmax ymin ymax).filter (fun r => r.2)).map Prod.fst)
      with _ | ⟨a, _ | ⟨b, t⟩⟩ <;> rw [hS] at hperm
    · have hV := hperm.symm.eq_nil
      rw [hS, hV]
      simp
    · have hV := List.perm_singleton.mp hperm.symm
      rw [hS, hV]
      simp
    · have hlen := hperm.length_eq
      simp only [List.length_cons] at hlen
      rw [hS, if_pos (by omega : 2 ≤ (((gridReadings s xmin xmax ymin ymax).filter
            (fun r => r.2)).map Prod.fst).length)]
      simp
  · intro p hp
    simp only [gridPoints, List.mem_flatMap, List.mem_map, List.mem_range] at hp
    obtain ⟨i0, hi0, j0, hj0, rfl⟩ := hp
    have hdx : 0 < xmax - xmin := sub_pos.mpr hx
    have hdy : 0 < ymax - ymin := sub_pos.mpr hy
    have hj0q : (0 : ℚ) ≤ (j0 : ℚ) := Nat.cast_nonneg j0
    have hi0q : (0 : ℚ) ≤ (i0 : ℚ) := Nat.cast_nonneg i0
    have hj3 : ((j0 : ℚ) + 1) ≤ 3 := by
      have h2 : (j0 : ℚ) ≤ 2 := by exact_mod_cast Nat.lt_succ_iff.mp hj0
      linarith
    have hi3 : ((i0 : ℚ) + 1) ≤ 3 := by
      have h2 : (i0 : ℚ) ≤ 2 := by exact_mod_cast Nat.lt_succ_iff.mp hi0
      linarith
    have hXlo : 0 < ((j0 : ℚ) + 1) * (xmax - xmin) := mul_pos (by linarith) hdx
    have hXhi : ((j0 : ℚ) + 1) * (xmax - xmin) ≤ 3 * (xmax - xmin) :=
      mul_le_mul_of_nonneg_right hj3 hdx.le
    have hYlo : 0 < ((i0 : ℚ) + 1) * (ymax - ymin) := mul_pos (by linarith) hdy
    have hYhi : ((i0 : ℚ) + 1) * (ymax - ymin) ≤ 3 * (ymax - ymin) :=
      mul_le_mul_of_nonneg_right hi3 hdy.le
    exact ⟨by dsimp only; linarith, by dsimp only; linarith,
           by dsimp only; linarith, by dsimp only; linarith⟩

/-- Concrete instance of `getObjDepth_spec` on the unit box over a depth map
with exactly two valid readings. -/
theorem getObjDepth_spec_witness :
    ((0 : ℚ) < 1) ∧
    (getObjDepth depthWitnessState 0 1 0 1
        = depthEstimateSpec (gridReadings depthWitnessState 0 1 0 1) ∧
      ∀ p ∈ gridPoints (0 : ℚ) 1 0 1,
        (0 : ℚ) < p.1 ∧ p.1 < 1 ∧ (0 : ℚ) < p.2 ∧ p.2 < 1) :=
  ⟨by norm_num,
    getObjDepth_spec depthWitnessState 0 1 0 1 (by norm_num) (by norm_num)⟩

/-- Characterization of the records emitted by the box-extraction loop: a
record appears exactly for a candidate detection and a class index below
`demoClasses_` whose score is nonzero and whose clipped width and height
both exceed 0.01. -/
theorem mem_extractBoxes {s : NodeState} {dets : List Detection} {C : ℕ}
    {b : RosBox} :
    b ∈ extractBoxes s dets C ↔
      ∃ det ∈ dets, ∃ j < C, det.prob.getD j 0 ≠ 0 ∧
        (detClip det).xmax - (detClip det).xmin > 1 / 100 ∧
        (detClip det).ymax - (detClip det).ymin > 1 / 100 ∧
        b = detRecord s det j := by
  simp only [extractBoxes, List.mem_flatMap, List.mem_filterMap, List.mem_range]
  constructor
  · rintro ⟨det, hdet, j, hj, hb⟩
    by_cases h1 : det.prob.getD j 0 ≠ 0
    · rw [if_pos h1] at hb
      by_cases h2 : (detClip det).xmax - (detClip det).xmin > 1 / 100 ∧
          (detClip det).ymax - (detClip det).ymin > 1 / 100
      · rw [if_pos h2] at hb
        exact ⟨det, hdet, j, hj, h1, h2.1, h2.2, (Option.some.inj hb).symm⟩
      · rw [if_neg h2] at hb
        exact absurd hb (by simp)
    · rw [if_neg h1] at hb
      exact absurd hb (by simp)
  · rintro ⟨det, hdet, j, hj, h1, h2, h3, rfl⟩
    exact ⟨det, hdet, j, hj, by rw [if_pos h1, if_pos ⟨h2, h3⟩]⟩

/-- Evaluation of the extraction loop on the single in-frame detection
`bigDet`: exactly its class-0 record is emitted. -/
theorem extractBoxes_bigDet :
    extractBoxes depthWitnessState [bigDet] 1
      = [detRecord depthWitnessState bigDet 0] := by
  have h1 : bigDet.prob.getD 0 0 ≠ 0 := by norm_num [bigDet]
  have h2 : (detClip bigDet).xmax - (detClip bigDet).xmin > 1 / 100 ∧
      (detClip bigDet).ymax - (detClip bigDet).ymin > 1 / 100 := by
    norm_num [detClip, clipEdges, rawEdges, bigDet]
  simp only [extractBoxes, List.flatMap_cons, List.flatMap_nil, List.append_nil]
  rw [show List.range 1 = [0] from rfl]
  simp only [List.filterMap_cons, List.filterMap_nil]
  rw [if_pos h1, if_pos h2]

/-- Length of a `flatMap` over a constant replicated list. -/
theorem length_flatMap_replicate {α β : Type} (n : ℕ) (a : α) (f : α → List β) :
    ((List.replicate n a).flatMap f).length = n * (f a).length := by
  induction n with
  | zero => simp
  | succ n ih =>
      simp only [List.replicate_succ, List.flatMap_cons, List.length_append, ih,
        Nat.succ_mul]
      omega

/-- The claim of C1 as stated is false: for the detection box with center
`x = 2, y = 1/2` and size `w = 1/10, h = 1/5` (wholly right of the unit
frame), the clipping of the detect stage leaves `xmin = 39/20 > 1`, outside
`[0,1]` and above the clipped `xmax`. -/
theorem clip_out_of_frame_cex :
    ¬ ((clipEdges (rawEdges 2 (1 / 2) (1 / 10) (1 / 5))).xmin ≤ 1 ∧
       (clipEdges (rawEdges 2 (1 / 2) (1 / 10) (1 / 5))).xmin
         ≤ (clipEdges (rawEdges 2 (1 / 2) (1 / 10) (1 / 5))).xmax) := by
  norm_num [clipEdges, rawEdges]

/-- Claim C1 (amended): for every detection box whose center lies in the
unit square and whose raw width and height are nonnegative, the clipped
edges all lie in `[0,1]` with `xmin ≤ xmax` and `ymin ≤ ymax`; and
regardless of its raw geometry, a candidate box is never dropped solely for
being out-of-frame — whenever its class score is nonzero and its clipped
width and height exceed 0.01, its record is emitted. -/
theorem clip_unit_frame_amended (det : Detection)
    (hx0 : 0 ≤ det.x) (hx1 : det.x ≤ 1) (hy0 : 0 ≤ det.y) (hy1 : det.y ≤ 1)
    (hw : 0 ≤ det.w) (hh : 0 ≤ det.h) :
    (0 ≤ (detClip det).xmin ∧ (detClip det).xmin ≤ 1 ∧
     0 ≤ (detClip det).ymin ∧ (detClip det).ymin ≤ 1 ∧
     0 ≤ (detClip det).xmax ∧ (detClip det).xmax ≤ 1 ∧
     0 ≤ (detClip det).ymax ∧ (detClip det).ymax ≤ 1 ∧
     (detClip det).xmin ≤ (detClip det).xmax ∧
     (detClip det).ymin ≤ (detClip det).ymax) ∧
    ∀ (s : NodeState) (dets : List Detection) (C j : ℕ),
      det ∈ dets → j < C → det.prob.getD j 0 ≠ 0 →
      (detClip det).xmax - (detClip det).xmin > 1 / 100 →
      (detClip det).ymax - (detClip det).ymin > 1 / 100 →
      detRecord s det j ∈ extractBoxes s dets C := by
  constructor
  · simp only [detClip, clipEdges, rawEdges]
    split_ifs <;>
      refine ⟨by linarith, by linarith, by linarith, by linarith, by linarith,
        by linarith, by linarith, by linarith, by linarith, by linarith⟩
  · intro s dets C j hdet hj h1 h2 h3
    exact mem_extractBoxes.mpr ⟨det, hdet, j, hj, h1, h2, h3, rfl⟩

/-- Concrete instance of `clip_unit_frame_amended` for `boundaryDet`, whose
box extends past the right frame edge. -/
theorem clip_unit_frame_amended_witness :
    ((0 : ℚ) ≤ boundaryDet.x ∧ boundaryDet.x ≤ 1 ∧
     (0 : ℚ) ≤ boundaryDet.y ∧ boundaryDet.y ≤ 1 ∧
     (0 : ℚ) ≤ boundaryDet.w ∧ (0 : ℚ) ≤ boundaryDet.h) ∧
    ((0 ≤ (detClip boundaryDet).xmin ∧ (detClip boundaryDet).xmin ≤ 1 ∧
      0 ≤ (detClip boundaryDet).ymin ∧ (detClip boundaryDet).ymin ≤ 1 ∧
      0 ≤ (detClip boundaryDet).xmax ∧ (detClip boundaryDet).xmax ≤ 1 ∧
      0 ≤ (detClip boundaryDet).ymax ∧ (detClip boundaryDet).ymax ≤ 1 ∧
      (detClip boundaryDet).xmin ≤ (detClip boundaryDet).xmax ∧
      (detClip boundaryDet).ymin ≤ (detClip boundaryDet).ymax) ∧
     ∀ (s : NodeState) (dets : List Detection) (C j : ℕ),
       boundaryDet ∈ dets → j < C → boundaryDet.prob.getD j 0 ≠ 0 →
       (detClip boundaryDet).xmax - (detClip boundaryDet).xmin > 1 / 100 →
       (detClip boundaryDet).ymax - (detClip boundaryDet).ymin > 1 / 100 →
       detRecord s boundaryDet j ∈ extractBoxes s dets C) := by
  refine ⟨by norm_num [boundaryDet], ?_⟩
  exact clip_unit_frame_amended boundaryDet (by norm_num [boundaryDet])
    (by norm_num [boundaryDet]) (by norm_num [boundaryDet])
    (by norm_num [boundaryDet]) (by norm_num [boundaryDet])
    (by norm_num [boundaryDet])

/-- Claim C6: a record is emitted only if its class score is nonzero and
both clipped dimensions exceed the minimum fraction 0.01 of the frame; in
particular the detection with clipped width 0.005 and height 0.2 is
excluded despite its nonzero score. -/
theorem emitted_box_filter :
    (∀ (s : NodeState) (dets : List Detection) (C : ℕ) (b : RosBox),
       b ∈ extractBoxes s dets C →
       b.prob ≠ 0 ∧ b.w > 1 / 100 ∧ b.h > 1 / 100) ∧
    thinDet.prob.getD 0 0 ≠ 0 ∧
    extractBoxes depthWitnessState [thinDet] 1 = [] := by
  refine ⟨?_, by norm_num [thinDet], ?_⟩
  · intro s dets C b hb
    obtain ⟨det, hdet, j, hj, h1, h2, h3, rfl⟩ := mem_extractBoxes.mp hb
    exact ⟨h1, h2, h3⟩
  · have h1 : thinDet.prob.getD 0 0 ≠ 0 := by norm_num [thinDet]
    have h2 : ¬ ((detClip thinDet).xmax - (detClip thinDet).xmin > 1 / 100 ∧
        (detClip thinDet).ymax - (detClip thinDet).ymin > 1 / 100) := by
      norm_num [detClip, clipEdges, rawEdges, thinDet]
    simp only [extractBoxes, List.flatMap_cons, List.flatMap_nil, List.append_nil]
    rw [show List.range 1 = [0] from rfl]
    simp only [List.filterMap_cons, List.filterMap_nil]
    rw [if_pos h1, if_neg h2]

/-- Concrete instance of `emitted_box_filter` on the emitted record of
`bigDet`. -/
theorem emitted_box_filter_witness :
    detRecord depthWitnessState bigDet 0
        ∈ extractBoxes depthWitnessState [bigDet] 1 ∧
    ((detRecord depthWitnessState bigDet 0).prob ≠ 0 ∧
     (detRecord depthWitnessState bigDet 0).w > 1 / 100 ∧
     (detRecord depthWitnessState bigDet 0).h > 1 / 100) := by
  have hmem : detRecord depthWitnessState bigDet 0
      ∈ extractBoxes depthWitnessState [bigDet] 1 := by
    rw [extractBoxes_bigDet]
    exact List.mem_singleton.mpr rfl
  exact ⟨hmem, emitted_box_filter.1 _ _ _ _ hmem⟩

/-- The claim of C7 as stated is false: when 101 records survive filtering,
`publishInThread` publishes the scalar 0, not 101 (the publish guard is
`0 < num ∧ num ≤ 100`). -/
theorem publishedCount_cex :
    (extractBoxes depthWitnessState (List.replicate 101 bigDet) 1).length = 101 ∧
    publishedCount (roiBoxesNum
      ((extractBoxes depthWitnessState (List.replicate 101 bigDet) 1).length)) = 0 := by
  have hone : ((List.range 1).filterMap (fun j =>
      if bigDet.prob.getD j 0 ≠ 0 then
        if (detClip bigDet).xmax - (detClip bigDet).xmin > 1 / 100 ∧
           (detClip bigDet).ymax - (detClip bigDet).ymin > 1 / 100 then
          some (detRecord depthWitnessState bigDet j)
        else none
      else none)).length = 1 := by
    have h1 : bigDet.prob.getD 0 0 ≠ 0 := by norm_num [bigDet]
    have h2 : (detClip bigDet).xmax - (detClip bigDet).xmin > 1 / 100 ∧
        (detClip bigDet).ymax - (detClip bigDet).ymin > 1 / 100 := by
      norm_num [detClip, clipEdges, rawEdges, bigDet]
    rw [show List.range 1 = [0] from rfl]
    simp only [List.filterMap_cons, List.filterMap_nil]
    rw [if_pos h1, if_pos h2]
    rfl
  have hlen : (extractBoxes depthWitnessState
      (List.replicate 101 bigDet) 1).length = 101 := by
    rw [extractBoxes, length_flatMap_replicate, hone]
  exact ⟨hlen, by rw [hlen]; norm_num [roiBoxesNum, publishedCount]⟩

/-- Claim C7 (amended): once per completed iteration the publish stage
emits a detection-count scalar equal to the number of detections that
survived filtering when that number is between 1 and 100, and 0 otherwise —
both when nothing survived and when more than 100 survived. -/
theorem publishedCount_amended (s : NodeState) (dets : List Detection)
    (C : ℕ) (n : ℕ) (hn : n = (extractBoxes s dets C).length) :
    (n = 0 → publishedCount (roiBoxesNum n) = 0) ∧
    (1 ≤ n → n ≤ 100 → publishedCount (roiBoxesNum n) = n) ∧
    (100 < n → publishedCount (roiBoxesNum n) = 0) := by
  unfold publishedCount roiBoxesNum
  refine ⟨fun h => ?_, fun h h2 => ?_, fun h => ?_⟩ <;> split_ifs <;> omega

/-- Concrete instance of `publishedCount_amended` with one surviving
record. -/
theorem publishedCount_amended_witness :
    (1 : ℕ) = (extractBoxes depthWitnessState [bigDet] 1).length ∧
    (((1 : ℕ) = 0 → publishedCount (roiBoxesNum 1) = 0) ∧
     (1 ≤ 1 → 1 ≤ 100 → publishedCount (roiBoxesNum 1) = 1) ∧
     (100 < 1 → publishedCount (roiBoxesNum 1) = 0)) := by
  have hn : (1 : ℕ) = (extractBoxes depthWitnessState [bigDet] 1).length := by
    rw [extractBoxes_bigDet]
    rfl
  exact ⟨hn, publishedCount_amended depthWitnessState [bigDet] 1 1 hn⟩

/-- The claim of C2 as stated is false: at ring index 0 with a pending
request, `publishInThread` completes the request with the id stored in ring
slot 0 (here 7), not the id stored in slot `(i+1) mod 3 = 1` (here 42). -/
theorem publishAction_slot_cex :
    cexPublishState.buffIndex = 0 ∧
    cexPublishState.actionActive = true ∧
    (publishAction cexPublishState).1 = some (cexPublishState.buffId 0) ∧
    (publishAction cexPublishState).1
      ≠ some (cexPublishState.buffId
          ⟨(cexPublishState.buffIndex + 1) % 3, by omega⟩) := by
  refine ⟨rfl, rfl, rfl, ?_⟩
  simp only [publishAction, cexPublishState]
  decide

/-- Claim C2 (amended): when a request is pending, the publish stage
completes it exactly once, with the correlation id stored in ring slot 0 —
which coincides with slot `(i+1) mod 3`'s tag only when `(i+1) mod 3 = 0`,
i.e. when the ring index `i` satisfies `i mod 3 = 2`. A second publish
cycle completes nothing. -/
theorem publishAction_amended (s : PublishState) (h : s.actionActive = true) :
    (publishAction s).1 = some (s.buffId 0) ∧
    (publishAction s).2.actionActive = false ∧
    (publishAction (publishAction s).2).1 = none ∧
    (s.buffIndex % 3 = 2 →
      (publishAction s).1
        = some (s.buffId ⟨(s.buffIndex + 1) % 3, by omega⟩)) := by
  refine ⟨by simp [publishAction, h], by simp [publishAction, h],
    by simp [publishAction, h], fun h2 => ?_⟩
  have hfin : (⟨(s.buffIndex + 1) % 3, by omega⟩ : Fin 3) = 0 := by
    apply Fin.ext
    show (s.buffIndex + 1) % 3 = 0
    omega
  rw [hfin]
  simp [publishAction, h]

/-- Concrete instance of `publishAction_amended` at ring index 2. -/
theorem publishAction_amended_witness :
    witPublishState.actionActive = true ∧
    ((publishAction witPublishState).1 = some (witPublishState.buffId 0) ∧
     (publishAction witPublishState).2.actionActive = false ∧
     (publishAction (publishAction witPublishState).2).1 = none ∧
     (witPublishState.buffIndex % 3 = 2 →
       (publishAction witPublishState).1
         = some (witPublishState.buffId
             ⟨(witPublishState.buffIndex + 1) % 3, by omega⟩))) :=
  ⟨rfl, publishAction_amended witPublishState rfl⟩

/-- Claim C8 concerns a code bug: with the running flag already false, the
loop flag still false and no pending or future `sem_new_image_` post, the
`yolo()` loop blocks forever in `sem_wait` without re-checking the running
flag (`yoloLoop ... = none`), so the destructor's `yoloThread_.join()`
deadlocks — the claim's "observed within one iteration / joinable without
deadlock" fails. When at least one post is available the intended behavior
does hold: the flag is observed within exactly one iteration, that
iteration joins both spawned contexts, and the loop exits. -/
theorem yoloLoop_blocked_at_shutdown :
    yoloLoop [] { demoDone := false, nodeRunning := false, unjoined := 0 } = none ∧
    ∀ (t : Unit) (ts : List Unit),
      yoloLoop (t :: ts) { demoDone := false, nodeRunning := false, unjoined := 0 }
        = some ({ demoDone := true, nodeRunning := false, unjoined := 0 }, 1) := by
  refine ⟨rfl, fun t ts => ?_⟩
  rw [yoloLoop.eq_def]
  simp only [Bool.false_eq_true, if_false]
  rw [show yoloIteration { demoDone := false, nodeRunning := false, unjoined := 0 }
      = { demoDone := true, nodeRunning := false, unjoined := 0 } from rfl]
  rw [yoloLoop.eq_def]
  simp

end DarknetRos
